import Mathlib

/-!
Shallow embedding of the parts-catalogue web application.

The embedding models, directly from the TypeScript source:
* the `Part` record and the in-memory filter / sort / paginate pipeline of
  `src/pages/parts-catalogue.tsx` and `src/pages/parts-summary.tsx`;
* the server-side search of `FirebaseService.searchParts`;
* the ticket-submission workflow of the part-application page;
* the application store operations of `FirebaseService`
  (`submitPartApplication`, `getAllPartApplications`, `getPartApplication`,
  `updatePartData`);
* the PDF layout routine of `PDFService.generateApplicationPDF`.

JS numbers are modelled as `Int`, JS objects as structures whose optional
fields are `Option`, mappings as association lists in enumeration order, and
the (specified-stable) `Array.prototype.sort` as `List.insertionSort`, which
is stable and agrees with any stable comparator sort.
-/

namespace PartsApp

/-- The `Part` interface of `src/types/index.ts`; every field there is
optional (`Material?: string` and so on), hence all fields are `Option`.
The TS field names `Dealer_vs_Std_%` and `Customer_vs_Std_%` are rendered
with `Pct` since `%` cannot occur in a Lean identifier. -/
structure Part where
  Material : Option String := none
  SPRAS_EN : Option String := none
  Standard_Price : Option Int := none
  Current_Stock_Qty : Option Int := none
  Sales_Qty_PGI_2025 : Option Int := none
  Sales_Qty_SO_2025 : Option Int := none
  Invoice_Amount_2025 : Option Int := none
  Invoice_Currency : Option String := none
  Sales_Currency : Option String := none
  Sales_Unit : Option String := none
  Dealer_Price : Option Int := none
  Customer_Price : Option Int := none
  Dealer_vs_Std_Pct : Option Int := none
  Customer_vs_Std_Pct : Option Int := none
  Purchase_Qty_2025_to_Date : Option Int := none
  Supplier_Name : Option String := none
  notes : Option String := none
  year : Option String := none
  obsoleted_date : Option String := none
  alternative_parts : Option String := none
deriving DecidableEq, Repr

/-- JS `x || 0` applied to a possibly missing number: a missing (or zero)
value is replaced by `0`. -/
def orZero (x : Option Int) : Int := x.getD 0

/-- A parts mapping in enumeration order, as produced by `Object.entries`:
a list of (part code, part record) pairs. -/
abbrev PartEntry := String × Part

/-- The filter predicate of `filteredAndSortedParts` in
`src/pages/parts-catalogue.tsx` (lines 74-80):
`matchesSupplier = selectedSupplier === 'all' || part.Supplier_Name === selectedSupplier`
and `matchesStock = !showInStockOnly || (part.Current_Stock_Qty || 0) > 0`;
the entry passes when both hold. -/
def passesFilter (selectedSupplier : String) (showInStockOnly : Bool) (e : PartEntry) : Bool :=
  (decide (selectedSupplier = "all") || decide (e.2.Supplier_Name = some selectedSupplier)) &&
  (!showInStockOnly || decide (0 < orZero e.2.Current_Stock_Qty))

/-- `Object.entries(allParts).filter(...)` of the catalogue page. -/
def filterParts (selectedSupplier : String) (showInStockOnly : Bool)
    (entries : List PartEntry) : List PartEntry :=
  entries.filter (passesFilter selectedSupplier showInStockOnly)

/-- `itemsPerPage = 50` of both the catalogue and the summary page. -/
def itemsPerPage : Nat := 50

/-- One page of the filtered-and-sorted sequence:
`filteredAndSortedParts.slice((currentPage - 1) * itemsPerPage,
(currentPage - 1) * itemsPerPage + itemsPerPage)`; pages are 1-indexed. -/
def paginate (l : List α) (page : Nat) : List α :=
  (l.drop ((page - 1) * itemsPerPage)).take itemsPerPage

/-- `Math.ceil(filteredAndSortedParts.length / itemsPerPage)` as the Nat
ceiling division. -/
def totalPages (l : List α) : Nat := (l.length + itemsPerPage - 1) / itemsPerPage

/-- `a.isPrefixOf b` test used to express JS substring containment. -/
def charsHaveSub : List Char → List Char → Bool
  | [], needle => needle.isEmpty
  | c :: rest, needle => needle.isPrefixOf (c :: rest) || charsHaveSub rest needle

/-- JS `hay.includes(needle)` (substring containment). -/
def strIncludes (hay needle : String) : Bool := charsHaveSub hay.data needle.data

/-- The match predicate of `FirebaseService.searchParts`
(`src/services/firebase.ts` lines 36-40): the lowercased search term is a
substring of the part code, of the description `SPRAS_EN || ''`, or of
`Supplier_Name || ''`. -/
def matchesSearch (searchTerm : String) (e : PartEntry) : Bool :=
  let searchLower := searchTerm.toLower
  strIncludes e.1.toLower searchLower ||
  strIncludes (e.2.SPRAS_EN.getD "").toLower searchLower ||
  strIncludes (e.2.Supplier_Name.getD "").toLower searchLower

/-- The `forEach` accumulation loop of `FirebaseService.searchParts`
(lines 31-44): entries are scanned in enumeration order, each match is kept
and counted, and once `count >= limit` every further entry is skipped. -/
def searchLoop (searchTerm : String) (limit : Nat) :
    List PartEntry → Nat → List PartEntry
  | [], _ => []
  | e :: rest, count =>
    if limit ≤ count then searchLoop searchTerm limit rest count
    else if matchesSearch searchTerm e then
      e :: searchLoop searchTerm limit rest (count + 1)
    else searchLoop searchTerm limit rest count

/-- `FirebaseService.searchParts(searchTerm, limit)`: for an empty term the
store is queried with `limitToFirst(limit)` (the first `limit` records in
enumeration order); otherwise all parts are fetched and scanned by the
counting loop. The `limit` parameter defaults to 50 in the source. -/
def searchParts (searchTerm : String) (limit : Nat) (allParts : List PartEntry) :
    List PartEntry :=
  if searchTerm = "" then allParts.take limit
  else searchLoop searchTerm limit allParts 0

/-! ### Sorting (catalogue and summary pages) -/

/-- The values of the catalogue `Sort By` select: part code (`material`,
the default comparator branch), price, stock, supplier. -/
inductive SortKey
  | material
  | price
  | stock
  | supplier
deriving DecidableEq, Repr

/-- JS `a.localeCompare(b)` modelled as the sign of the string comparison
(locale-aware collation modelled as the standard string order). -/
def strCmp (a b : String) : Int :=
  if a < b then -1 else if a = b then 0 else 1

/-- The comparator of `filteredAndSortedParts` in
`src/pages/parts-catalogue.tsx` (lines 83-94): price ascending by
`(a.Standard_Price || 0) - (b.Standard_Price || 0)`, stock descending by
`(b.Current_Stock_Qty || 0) - (a.Current_Stock_Qty || 0)`, supplier by
`localeCompare` on `Supplier_Name || ''`, default part code by
`localeCompare`. -/
def cmpEntries (sortBy : SortKey) (a b : PartEntry) : Int :=
  match sortBy with
  | .price => orZero a.2.Standard_Price - orZero b.2.Standard_Price
  | .stock => orZero b.2.Current_Stock_Qty - orZero a.2.Current_Stock_Qty
  | .supplier => strCmp (a.2.Supplier_Name.getD "") (b.2.Supplier_Name.getD "")
  | .material => strCmp a.1 b.1

/-- `a` sorts no later than `b` under the comparator (comparator value at
most 0). -/
def sortLe (k : SortKey) (a b : PartEntry) : Prop := cmpEntries k a b ≤ 0

instance (k : SortKey) : DecidableRel (sortLe k) := fun _ _ => Int.decLe _ _

/-- `filtered.sort(comparator)`: ECMAScript guarantees a stable sort, so the
call is modelled by the stable `List.insertionSort` under the comparator
relation. -/
def sortEntries (k : SortKey) (l : List PartEntry) : List PartEntry :=
  l.insertionSort (sortLe k)

/-- The sort direction state of the summary page. -/
inductive SortDirection
  | asc
  | desc
deriving DecidableEq, Repr

/-- The numeric branch of the summary-page comparator
(`src/pages/parts-summary.tsx` lines 95-106) for a numeric field accessor
`f`: `aNum - bNum` when ascending, `bNum - aNum` when descending. -/
def cmpSummaryNum {α : Type} (f : α → Int) (dir : SortDirection) (a b : α) : Int :=
  match dir with
  | .asc => f a - f b
  | .desc => f b - f a

/-- Comparator order for the summary sort. -/
def summaryLe {α : Type} (f : α → Int) (dir : SortDirection) (a b : α) : Prop :=
  cmpSummaryNum f dir a b ≤ 0

instance {α : Type} (f : α → Int) (dir : SortDirection) :
    DecidableRel (summaryLe f dir) := fun _ _ => Int.decLe _ _

/-- `filtered.sort((a, b) => ...)` of the summary page, numeric branch. -/
def sortSummaryNum {α : Type} (f : α → Int) (dir : SortDirection) (l : List α) : List α :=
  l.insertionSort (summaryLe f dir)

/-- The price key `(p.Standard_Price || 0)` used by the price comparator. -/
def priceKey (e : PartEntry) : Int := orZero e.2.Standard_Price

/-- The stock key `(p.Current_Stock_Qty || 0)` used by the stock comparator. -/
def stockKey (e : PartEntry) : Int := orZero e.2.Current_Stock_Qty

/-- The supplier key `(p.Supplier_Name || '')` used by the supplier
comparator. -/
def supplierKey (e : PartEntry) : String := e.2.Supplier_Name.getD ""

/-- The tie-breaking discipline asserted by the spec: any two records of the
list that compare equal under the chosen key appear in part-code order. -/
def tiesBrokenByCode (k : SortKey) (l : List PartEntry) : Prop :=
  l.Pairwise (fun a b => cmpEntries k a b = 0 → a.1 ≤ b.1)

/-- A part with price 1 used to exhibit a tie. -/
def partTied : Part := { Standard_Price := some 1 }

/-- Two summary rows with distinct prices. -/
def rowA : PartEntry := ("A", { Standard_Price := some 1 })

/-- Second row, price 2. -/
def rowB : PartEntry := ("B", { Standard_Price := some 2 })

/-! ### Ticket submission workflow (part-application page) -/

/-- The `priority` select values (`low`, `medium`, `high`). -/
inductive Priority
  | low
  | medium
  | high
deriving DecidableEq, Repr

/-- Ticket status (`pending`, `approved`, `rejected`). -/
inductive Status
  | pending
  | approved
  | rejected
deriving DecidableEq, Repr

/-- The `formData` state of the part-application page; every text field
starts as the empty string and `priority` as `medium`. -/
structure ApplicationForm where
  requestedBy : String := ""
  department : String := ""
  priority : Priority := .medium
  quantity : String := ""
  specifications : String := ""
  supplier : String := ""
  estimatedCost : String := ""
  deliveryDate : String := ""
  notes : String := ""
deriving DecidableEq, Repr

/-- The page-local `PartApplication` interface of the part-application page
(distinct from the store-level interface of `src/types/index.ts`). -/
structure LocalApplication where
  ticketId : String
  requestedBy : String
  department : String
  priority : Priority
  quantity : String
  specifications : String
  supplier : String
  estimatedCost : String
  deliveryDate : String
  notes : String
  submittedAt : String
  status : Status
deriving DecidableEq, Repr

/-- Decimal digit character, used for JS `Number.prototype.toString()`. -/
def digitChar10 (d : Nat) : Char :=
  match d with
  | 0 => '0'
  | 1 => '1'
  | 2 => '2'
  | 3 => '3'
  | 4 => '4'
  | 5 => '5'
  | 6 => '6'
  | 7 => '7'
  | 8 => '8'
  | 9 => '9'
  | _ => 'X'

/-- Little-endian decimal digit characters of a natural number. -/
def natToChars (n : Nat) : List Char :=
  if _h : n < 10 then [digitChar10 n]
  else digitChar10 (n % 10) :: natToChars (n / 10)
termination_by n
decreasing_by exact Nat.div_lt_self (by omega) (by omega)

/-- JS `n.toString()` for a natural number: big-endian decimal digits. -/
def natToString (n : Nat) : String := ((natToChars n).reverse).asString

/-- JS `s.padStart(2, '0')`: left-pad with `'0'` up to length 2. -/
def padStart2 (s : String) : String :=
  if s.length < 2 then (List.replicate (2 - s.length) '0').asString ++ s else s

/-- The ticket id minted for counter value `n`: the template string
interpolating `Part` with `nextNumber.toString().padStart(2, '0')`. -/
def mkTicketId (n : Nat) : String := "Part" ++ padStart2 (natToString n)

/-- `generateTicketId` of the part-application page: the counter is
`applications.length + 1`. -/
def generateTicketId (applications : List LocalApplication) : String :=
  mkTicketId (applications.length + 1)

/-- The error message shown when validation fails. -/
def validationMessage : String := "Please fill in all required fields"

/-- The `newApplication` record literal built by `handleSubmit`: the form
fields plus the minted ticket id, the submission timestamp
(`new Date().toISOString()`, passed in as `now`) and status `pending`. -/
def newApplicationOf (form : ApplicationForm) (now : String) (ticketId : String) :
    LocalApplication :=
  { ticketId := ticketId
    requestedBy := form.requestedBy
    department := form.department
    priority := form.priority
    quantity := form.quantity
    specifications := form.specifications
    supplier := form.supplier
    estimatedCost := form.estimatedCost
    deliveryDate := form.deliveryDate
    notes := form.notes
    submittedAt := now
    status := Status.pending }

/-- `handleSubmit` of the part-application page: rejects unless
`requestedBy`, `department`, `quantity` and `specifications` are all
non-empty (JS truthiness on strings); on success mints the next ticket id,
stamps the submission time, sets status `pending` and appends the new
application to the list. Returns the outcome and the updated list. -/
def handleSubmit (form : ApplicationForm) (now : String)
    (applications : List LocalApplication) :
    Except String String × List LocalApplication :=
  if form.requestedBy = "" ∨ form.department = "" ∨ form.quantity = "" ∨
      form.specifications = "" then
    (Except.error validationMessage, applications)
  else
    let ticketId := generateTicketId applications
    (Except.ok ticketId, applications ++ [newApplicationOf form now ticketId])

/-- The application lists reachable from the initial empty list by any
sequence of submissions (successful or rejected). -/
inductive Reachable : List LocalApplication → Prop
  | init : Reachable []
  | step (form : ApplicationForm) (now : String) (st : List LocalApplication) :
      Reachable st → Reachable (handleSubmit form now st).2

/-- The submission of the spec scenario: requester `Alice`, department
`Eng`, specifications `bolt`, every other field (including `quantity`)
empty. -/
def formAlice : ApplicationForm :=
  { requestedBy := "Alice", department := "Eng", specifications := "bolt" }

/-- A submission that passes validation. -/
def formBob : ApplicationForm :=
  { requestedBy := "Bob", department := "Eng", quantity := "1",
    specifications := "bolt" }

/-! ### Firebase service: application store and part admin updates -/

/-- The store-level `PartApplication` interface of `src/types/index.ts`. -/
structure PartApplication where
  ticket_id : String
  supplier_name : String
  part_description : String
  part_number : String
  requested_by : String
  department : String
  urgency : Priority
  technical_specs : String
  application_notes : String
  estimated_cost : Int
  justification : String
  image_url : Option String := none
  status : Status
  created_at : Int
deriving DecidableEq, Repr

/-- The `PartApplications` collection: push-key / record pairs in key
(enumeration) order. -/
abbrev AppStore := List (String × PartApplication)

/-- The child order of `query(applicationsRef, orderByChild('created_at'))`:
ascending `created_at`, children with equal values ordered by key (the
documented Realtime Database contract). -/
def appLe (a b : String × PartApplication) : Prop :=
  a.2.created_at < b.2.created_at ∨
    (a.2.created_at = b.2.created_at ∧ a.1 ≤ b.1)

instance : DecidableRel appLe := fun a b => by
  unfold appLe
  infer_instance

/-- `FirebaseService.getAllPartApplications`: reads the collection ordered
by `created_at`, takes the values and reverses them (most recent first).
The unread store is returned unchanged alongside the result. -/
def getAllPartApplications (st : AppStore) : List PartApplication × AppStore :=
  (((st.insertionSort appLe).map Prod.snd).reverse, st)

/-- `FirebaseService.getPartApplication`: reads the child at
`PartApplications/{ticketId}`, yielding the record or `null`. The unread
store is returned unchanged alongside the result. -/
def getPartApplication (ticketId : String) (st : AppStore) :
    Option PartApplication × AppStore :=
  (st.lookup ticketId, st)

/-- The admin update payload of `FirebaseService.updatePartData`
(`updates: { notes?; year?; obsoleted_date?; alternative_parts? }`); `none`
models an absent key. -/
structure PartUpdates where
  notes : Option String := none
  year : Option String := none
  obsoleted_date : Option String := none
  alternative_parts : Option String := none
deriving DecidableEq, Repr

/-- One key of the object spread `{ ...currentData.val(), ...updates }`: a
key present in `updates` overwrites, an absent key keeps the current
value. -/
def overrideField (upd cur : Option String) : Option String :=
  match upd with
  | some v => some v
  | none => cur

/-- The record spread produces `{}` when the read value is `null`. -/
def emptyPart : Part := {}

/-- `{ ...currentData.val(), ...updates }` for the four admin fields. -/
def mergePart (old : Part) (u : PartUpdates) : Part :=
  { old with
    notes := overrideField u.notes old.notes
    year := overrideField u.year old.year
    obsoleted_date := overrideField u.obsoleted_date old.obsoleted_date
    alternative_parts := overrideField u.alternative_parts old.alternative_parts }

/-- The `Parts` collection as a keyed store. -/
abbrev PartsStore := String → Option Part

/-- `FirebaseService.updatePartData`: read the current record at
`Parts/{material}`, merge the update payload over it by object spread, and
write the merged record back at the same key. -/
def updatePartData (material : String) (updates : PartUpdates)
    (store : PartsStore) : PartsStore :=
  fun m =>
    if m = material then some (mergePart ((store material).getD emptyPart) updates)
    else store m

/-- A concrete stored ticket. -/
def appRec1 : PartApplication :=
  { ticket_id := "t1", supplier_name := "s", part_description := "d",
    part_number := "n", requested_by := "r", department := "dep",
    urgency := .low, technical_specs := "", application_notes := "",
    estimated_cost := 0, justification := "", status := .pending,
    created_at := 1 }

/-- A second stored ticket, created later. -/
def appRec2 : PartApplication :=
  { appRec1 with ticket_id := "t2", created_at := 2 }

/-- A concrete two-ticket store. -/
def storeW : AppStore := [("k1", appRec1), ("k2", appRec2)]

/-- A stored part carrying an admin note. -/
def oldPartW : Part := { notes := some "old" }

/-- A parts store holding `oldPartW` under key `P1`. -/
def storeP : PartsStore := fun m => if m = "P1" then some oldPartW else none

/-- An update payload carrying only a `year` key. -/
def updW : PartUpdates := { year := some "2024" }

/-! ### PDF export (`PDFService.generateApplicationPDF`) -/

/-- Export language (`'en' | 'zh'`). -/
inductive Lang
  | en
  | zh
deriving DecidableEq, Repr

/-- Abstract drawing operations issued against the `jsPDF` document, in call
order. Coordinates are not recorded; the running `yPosition` is tracked in
the generator state to decide page breaks exactly as the source does. -/
inductive PdfOp
  | setFontPlain
  | setFontSize (n : Int)
  | setFontBold
  | setFontNormal
  | text (s : String)
  | textLines (ls : List String)
  | addPage
  | image (url : String)
deriving DecidableEq, Repr

/-- Generator state: the operations issued so far and the running
`yPosition` in millimetres. -/
structure PdfState where
  ops : List PdfOp
  y : Int
deriving DecidableEq, Repr

/-- Issue one drawing call. -/
def emit (op : PdfOp) (st : PdfState) : PdfState :=
  { st with ops := st.ops ++ [op] }

/-- `yPosition += d`. -/
def advance (d : Int) (st : PdfState) : PdfState :=
  { st with y := st.y + d }

/-- A4 page height in millimetres (`pageSize.getHeight()`). -/
def pageHeightMm : Int := 297

/-- Page margin in millimetres. -/
def pdfMargin : Int := 20

/-- `contentWidth = pageWidth - 2 * margin` for A4 width 210. -/
def contentWidthMm : Int := 170

/-- `pdf.addPage(); yPosition = margin`. -/
def newPage (st : PdfState) : PdfState :=
  { ops := st.ops ++ [PdfOp.addPage], y := pdfMargin }

/-- Document title. -/
def pdfTitle : Lang → String
  | .zh => "零部件申请单"
  | .en => "Part Application Form"

/-- Ticket-id label. -/
def ticketLabel : Lang → String
  | .zh => "申请单号:"
  | .en => "Ticket ID:"

/-- Application-date label. -/
def dateLabel : Lang → String
  | .zh => "申请日期:"
  | .en => "Application Date:"

/-- Status label. -/
def statusLabel : Lang → String
  | .zh => "状态:"
  | .en => "Status:"

/-- Urgency label. -/
def urgencyLabel : Lang → String
  | .zh => "紧急程度:"
  | .en => "Urgency:"

/-- Part-information section title. -/
def partInfoTitle : Lang → String
  | .zh => "零部件信息"
  | .en => "Part Information"

/-- Part-number field label. -/
def partNumberLabel : Lang → String
  | .zh => "零部件编号:"
  | .en => "Part Number:"

/-- Supplier field label. -/
def supplierLabel : Lang → String
  | .zh => "供应商:"
  | .en => "Supplier:"

/-- Description field label. -/
def descriptionLabel : Lang → String
  | .zh => "零部件描述:"
  | .en => "Description:"

/-- Request-information section title. -/
def requestInfoTitle : Lang → String
  | .zh => "申请信息"
  | .en => "Request Information"

/-- Requested-by field label. -/
def requestedByLabel : Lang → String
  | .zh => "申请人:"
  | .en => "Requested By:"

/-- Department field label. -/
def departmentLabel : Lang → String
  | .zh => "部门:"
  | .en => "Department:"

/-- Estimated-cost field label. -/
def costLabel : Lang → String
  | .zh => "预估成本:"
  | .en => "Estimated Cost:"

/-- Technical-specifications section title. -/
def techSpecsTitle : Lang → String
  | .zh => "技术规格"
  | .en => "Technical Specifications"

/-- Business-justification section title. -/
def justificationTitle : Lang → String
  | .zh => "业务依据"
  | .en => "Business Justification"

/-- Additional-notes section title. -/
def notesTitle : Lang → String
  | .zh => "附加说明"
  | .en => "Additional Notes"

/-- Part-image section title. -/
def imageTitle : Lang → String
  | .zh => "零部件图片"
  | .en => "Part Image"

/-- `status.toUpperCase()`. -/
def statusUpper : Status → String
  | .pending => "PENDING"
  | .approved => "APPROVED"
  | .rejected => "REJECTED"

/-- `urgency.toUpperCase()`. -/
def urgencyUpper : Priority → String
  | .low => "LOW"
  | .medium => "MEDIUM"
  | .high => "HIGH"

/-- Footer line with the generation date. -/
def footerText (lang : Lang) (today : String) : String :=
  match lang with
  | .zh => "生成日期: " ++ today ++ " | 零部件申请系统"
  | .en => "Generated: " ++ today ++ " | Parts Application System"

/-- Language code used in the exported filename. -/
def langCode : Lang → String
  | .zh => "zh"
  | .en => "en"

/-- The saved filename interpolating the ticket id and the language. -/
def pdfFilename (app : PartApplication) (lang : Lang) : String :=
  app.ticket_id ++ "_" ++ langCode lang ++ ".pdf"

/-- Header: title, ticket id, date, status and urgency lines, with the font
size changes and vertical advances of the source. -/
def headerBlock (lang : Lang) (fmtDate : Int → String) (app : PartApplication)
    (st : PdfState) : PdfState :=
  let st := emit (.setFontSize 20) st
  let st := emit .setFontBold st
  let st := emit (.text (pdfTitle lang)) st
  let st := advance 15 st
  let st := emit (.setFontSize 12) st
  let st := emit .setFontNormal st
  let st := emit (.text (ticketLabel lang ++ " " ++ app.ticket_id)) st
  let st := advance 10 st
  let st := emit (.text (dateLabel lang ++ " " ++ fmtDate app.created_at)) st
  let st := advance 15 st
  let st := emit (.setFontSize 10) st
  let st := emit (.text (statusLabel lang ++ " " ++ statusUpper app.status)) st
  let st := emit (.text (urgencyLabel lang ++ " " ++ urgencyUpper app.urgency)) st
  let st := advance 15 st
  emit (.setFontSize 12) st

/-- One part-information field: bold label, wrapped value
(`splitTextToSize(value, contentWidth - 40)`), advance by
`lines.length * 5 + 3`. -/
def partFieldStep (split : String → Int → List String) (f : String × String)
    (st : PdfState) : PdfState :=
  let st := emit .setFontBold st
  let st := emit (.text f.1) st
  let st := emit .setFontNormal st
  let lines := split f.2 (contentWidthMm - 40)
  let st := emit (.textLines lines) st
  advance (lines.length * 5 + 3) st

/-- Part-information section: title plus the part number, supplier and
description fields, then advance 5. -/
def partInfoBlock (lang : Lang) (split : String → Int → List String)
    (app : PartApplication) (st : PdfState) : PdfState :=
  let st := emit .setFontBold st
  let st := emit (.text (partInfoTitle lang)) st
  let st := advance 8 st
  let st := emit .setFontNormal st
  let st := partFieldStep split (partNumberLabel lang, app.part_number) st
  let st := partFieldStep split (supplierLabel lang, app.supplier_name) st
  let st := partFieldStep split (descriptionLabel lang, app.part_description) st
  advance 5 st

/-- One request-information field: bold label, plain value, advance 7. -/
def requestFieldStep (f : String × String) (st : PdfState) : PdfState :=
  let st := emit .setFontBold st
  let st := emit (.text f.1) st
  let st := emit .setFontNormal st
  let st := emit (.text f.2) st
  advance 7 st

/-- Request-information section: title plus requester, department and
formatted estimated cost, then advance 5. -/
def requestBlock (lang : Lang) (fmtCurrency : Int → String)
    (app : PartApplication) (st : PdfState) : PdfState :=
  let st := emit .setFontBold st
  let st := emit (.text (requestInfoTitle lang)) st
  let st := advance 8 st
  let st := emit .setFontNormal st
  let st := requestFieldStep (requestedByLabel lang, app.requested_by) st
  let st := requestFieldStep (departmentLabel lang, app.department) st
  let st := requestFieldStep (costLabel lang, fmtCurrency app.estimated_cost) st
  advance 5 st

/-- Technical-specifications section, emitted only when
`application.technical_specs` is truthy (non-empty). -/
def techBlock (lang : Lang) (split : String → Int → List String)
    (app : PartApplication) (st : PdfState) : PdfState :=
  if app.technical_specs ≠ "" then
    let st := emit .setFontBold st
    let st := emit (.text (techSpecsTitle lang)) st
    let st := advance 8 st
    let st := emit .setFontNormal st
    let lines := split app.technical_specs contentWidthMm
    let st := emit (.textLines lines) st
    advance (lines.length * 5 + 10) st
  else st

/-- Business-justification section, emitted only when
`application.justification` is truthy; breaks the page first when
`yPosition > pageHeight - 60`. -/
def justBlock (lang : Lang) (split : String → Int → List String)
    (app : PartApplication) (st : PdfState) : PdfState :=
  if app.justification ≠ "" then
    let st := if st.y > pageHeightMm - 60 then newPage st else st
    let st := emit .setFontBold st
    let st := emit (.text (justificationTitle lang)) st
    let st := advance 8 st
    let st := emit .setFontNormal st
    let lines := split app.justification contentWidthMm
    let st := emit (.textLines lines) st
    advance (lines.length * 5 + 10) st
  else st

/-- Additional-notes section, emitted only when
`application.application_notes` is truthy; breaks the page first when
`yPosition > pageHeight - 40`. -/
def notesBlock (lang : Lang) (split : String → Int → List String)
    (app : PartApplication) (st : PdfState) : PdfState :=
  if app.application_notes ≠ "" then
    let st := if st.y > pageHeightMm - 40 then newPage st else st
    let st := emit .setFontBold st
    let st := emit (.text (notesTitle lang)) st
    let st := advance 8 st
    let st := emit .setFontNormal st
    let lines := split app.application_notes contentWidthMm
    let st := emit (.textLines lines) st
    advance (lines.length * 5 + 10) st
  else st

/-- Image section, attempted only when `application.image_url` is truthy:
page break when `yPosition > pageHeight - 100`, bold section title, advance
10, then the image itself only when the fetch succeeds (`img.onload`); a
failed fetch (`img.onerror`) resolves without drawing and never fails the
export. -/
def imageBlock (lang : Lang) (fetchImage : String → Bool)
    (app : PartApplication) (st : PdfState) : PdfState :=
  match app.image_url with
  | none => st
  | some url =>
    if url = "" then st
    else
      let st := if st.y > pageHeightMm - 100 then newPage st else st
      let st := emit .setFontBold st
      let st := emit (.text (imageTitle lang)) st
      let st := advance 10 st
      if fetchImage url then emit (.image url) st else st

/-- Footer: small normal font and the generation line at a fixed position
(independent of `yPosition`). -/
def footerBlock (lang : Lang) (today : String) (st : PdfState) : PdfState :=
  let st := emit (.setFontSize 8) st
  let st := emit .setFontNormal st
  emit (.text (footerText lang today)) st

/-- Initial document state: `pdf.setFont('helvetica')` issued,
`yPosition = margin`. -/
def initPdfState : PdfState :=
  { ops := [PdfOp.setFontPlain], y := pdfMargin }

/-- `PDFService.generateApplicationPDF(application, language)`: the fixed
sequence of blocks, returning the issued operations and the filename passed
to `pdf.save`. The text wrapper `splitTextToSize`, the image fetch outcome,
`formatDate`, `formatCurrency` and the current date of the footer are
environment functions passed as parameters. -/
def generateApplicationPDF (split : String → Int → List String)
    (fetchImage : String → Bool) (fmtDate : Int → String)
    (fmtCurrency : Int → String) (today : String)
    (app : PartApplication) (lang : Lang) : PdfState × String :=
  (footerBlock lang today
    (imageBlock lang fetchImage app
      (notesBlock lang split app
        (justBlock lang split app
          (techBlock lang split app
            (requestBlock lang fmtCurrency app
              (partInfoBlock lang split app
                (headerBlock lang fmtDate app initPdfState))))))),
   pdfFilename app lang)

/-- Is the operation an embedded image? -/
def isImageOp : PdfOp → Bool
  | .image _ => true
  | _ => false

/-- No image operation occurs in the list. -/
def NoImg (l : List PdfOp) : Prop := ∀ url, PdfOp.image url ∉ l

/-- The identity text wrapper used for concrete documents. -/
def splitW : String → Int → List String := fun s _ => [s]

/-- A constant formatter used for concrete documents. -/
def fmtW : Int → String := fun _ => "d"

/-- A ticket with no technical specs, justification or notes. -/
def appNoOpt : PartApplication :=
  { ticket_id := "T1", supplier_name := "S", part_description := "D",
    part_number := "N", requested_by := "R", department := "DP",
    urgency := .low, technical_specs := "", application_notes := "",
    estimated_cost := 0, justification := "", status := .pending,
    created_at := 0 }

/-- The same ticket carrying an image reference. -/
def appWithImage : PartApplication :=
  { appNoOpt with ticket_id := "T2", image_url := some "u" }

/-- A ticket whose justification alone is empty: technical specifications
and notes are present. -/
def appOnlyJustEmpty : PartApplication :=
  { appNoOpt with
    ticket_id := "T3"
    technical_specs := "TS"
    application_notes := "NN"
    justification := "" }

/-! ### General list lemmas -/

theorem take_add_eq (l : List α) (m n : Nat) :
    l.take (m + n) = l.take m ++ (l.drop m).take n := by
  conv_lhs => rw [← List.take_append_drop m (l.take (m + n))]
  rw [List.take_take, List.take_drop, min_eq_left (Nat.le_add_right m n)]

/-! ### Claim theorems: filter, pagination, search -/

theorem paginate_join (n : Nat) (l : List α) :
    ((List.range n).map (fun i => paginate l (i + 1))).flatten = l.take (n * itemsPerPage) := by
  induction n with
  | zero => simp
  | succ n ih =>
    rw [List.range_succ, List.map_append, List.flatten_append]
    simp only [List.map_cons, List.map_nil, List.flatten_cons, List.flatten_nil, List.append_nil]
    rw [ih, Nat.succ_mul, take_add_eq]
    simp [paginate]

/-- Claim C1: a record passes the catalogue filter iff the supplier filter is
"all" or equals the record supplier, and the stock flag is off or the stock
quantity is positive; filtering with supplier "all" and stock flag off is the
identity; and the stock-only result is exactly the stock-positive subset of
the unrestricted result. -/
theorem catalogue_filter_spec (s : String) (b : Bool) (M : List PartEntry) :
    (∀ e, e ∈ filterParts s b M ↔
        e ∈ M ∧ ((s = "all" ∨ e.2.Supplier_Name = some s) ∧
          (b = false ∨ 0 < orZero e.2.Current_Stock_Qty)))
    ∧ filterParts "all" false M = M
    ∧ filterParts s true M =
        (filterParts s false M).filter (fun e => decide (0 < orZero e.2.Current_Stock_Qty)) := by
  refine ⟨fun e => ?_, ?_, ?_⟩
  · simp [filterParts, passesFilter, List.mem_filter, and_assoc]
  · simp [filterParts, passesFilter]
  · simp only [filterParts, passesFilter, List.filter_filter]
    apply List.filter_congr
    intro e _
    simp only [passesFilter]
    cases hs : decide (s = "all") <;> cases hq : decide (0 < orZero e.2.Current_Stock_Qty) <;>
      simp [hs, hq]

/-- Claim C3: pages of size 50 are 1-indexed slices; the page count is the
ceiling of length / 50; concatenating pages 1 .. totalPages reconstructs the
sequence; every non-final page is full; any page past the last is empty; and
the empty sequence has zero pages. -/
theorem pagination_spec (l : List α) :
    ((List.range (totalPages l)).map (fun i => paginate l (i + 1))).flatten = l
    ∧ (l.length ≤ itemsPerPage * totalPages l ∧
        itemsPerPage * totalPages l < l.length + itemsPerPage)
    ∧ (∀ p, 1 ≤ p → p < totalPages l → (paginate l p).length = itemsPerPage)
    ∧ (∀ p, totalPages l < p → paginate l p = [])
    ∧ totalPages ([] : List α) = 0 := by
  have hceil : l.length ≤ itemsPerPage * totalPages l ∧
      itemsPerPage * totalPages l < l.length + itemsPerPage := by
    simp only [totalPages, itemsPerPage]
    omega
  refine ⟨?_, hceil, ?_, ?_, by simp [totalPages, itemsPerPage]⟩
  · rw [paginate_join]
    apply List.take_of_length_le
    simp only [totalPages, itemsPerPage] at *
    omega
  · intro p h1 h2
    simp only [paginate, List.length_take, List.length_drop]
    simp only [totalPages, itemsPerPage] at *
    omega
  · intro p hp
    have hlen : l.length ≤ (p - 1) * itemsPerPage := by
      simp only [totalPages, itemsPerPage] at *
      omega
    simp [paginate, List.drop_eq_nil_iff.mpr hlen]

theorem pagination_spec_witness :
    1 ≤ 1 ∧ (1 : Nat) < totalPages (List.replicate 60 0) ∧
      (paginate (List.replicate 60 (0 : Nat)) 1).length = itemsPerPage ∧
      totalPages (List.replicate 60 (0 : Nat)) < 3 ∧
      paginate (List.replicate 60 (0 : Nat)) 3 = [] := by
  refine ⟨by decide, by decide, ?_, by decide, ?_⟩
  · exact (pagination_spec (List.replicate 60 (0 : Nat))).2.2.1 1 (by decide) (by decide)
  · exact (pagination_spec (List.replicate 60 (0 : Nat))).2.2.2.1 3 (by decide)

theorem searchLoop_eq (term : String) (limit : Nat) (l : List PartEntry) (c : Nat) :
    searchLoop term limit l c = (l.filter (matchesSearch term)).take (limit - c) := by
  induction l generalizing c with
  | nil => simp [searchLoop]
  | cons e rest ih =>
    simp only [searchLoop]
    by_cases h1 : limit ≤ c
    · rw [if_pos h1, ih]
      have h0 : limit - c = 0 := by omega
      simp [h0]
    · rw [if_neg h1]
      by_cases h2 : matchesSearch term e
      · rw [if_pos h2, ih]
        have hs : limit - c = (limit - (c + 1)) + 1 := by omega
        simp [List.filter_cons, h2, hs, List.take_succ_cons]
      · rw [if_neg h2, ih]
        simp [List.filter_cons, h2]

/-- Claim C10: the server-side search truncates: a non-empty term keeps only
the first `limit` matching records in enumeration order (the prefix of the
filtered store), an empty term returns only the first `limit` records of the
store, and the result never exceeds `limit` records. -/
theorem search_truncation_spec (term : String) (limit : Nat) (store : List PartEntry) :
    searchParts term limit store =
      (if term = "" then store.take limit
       else (store.filter (matchesSearch term)).take limit)
    ∧ (searchParts term limit store).length ≤ limit := by
  have h : searchParts term limit store =
      (if term = "" then store.take limit
       else (store.filter (matchesSearch term)).take limit) := by
    unfold searchParts
    by_cases ht : term = "" <;> simp [ht, searchLoop_eq]
  refine ⟨h, ?_⟩
  rw [h]
  by_cases ht : term = "" <;> simp [ht, List.length_take]

/-! ### Sorting theorems -/

theorem insertionSort_filter_key {α β : Type} [DecidableEq β] (κ : α → β)
    (r : α → α → Prop) [DecidableRel r] (hr : ∀ a b, κ a = κ b → r a b)
    (c : β) (l : List α) :
    (l.insertionSort r).filter (fun e => decide (κ e = c)) =
      l.filter (fun e => decide (κ e = c)) := by
  set p : α → Bool := fun e => decide (κ e = c) with hp
  have hsub : List.Sublist (l.filter p) (l.insertionSort r) := by
    apply List.sublist_insertionSort
    · apply List.pairwise_of_forall_mem_list
      intro a ha b hb
      have hka : κ a = c := by simpa [hp] using (List.mem_filter.mp ha).2
      have hkb : κ b = c := by simpa [hp] using (List.mem_filter.mp hb).2
      exact hr a b (hka.trans hkb.symm)
    · exact List.filter_sublist l
  have hsub2 : List.Sublist (l.filter p) ((l.insertionSort r).filter p) := by
    have h1 : (l.filter p).filter p = l.filter p :=
      List.filter_eq_self.mpr fun a ha => (List.mem_filter.mp ha).2
    have h2 := hsub.filter p
    rwa [h1] at h2
  have hlen : (l.filter p).length = ((l.insertionSort r).filter p).length :=
    (((List.perm_insertionSort r l).filter p).length_eq).symm
  exact (hsub2.eq_of_length hlen).symm

theorem sortSummaryNum_reverse {α : Type} (f : α → Int) (l : List α)
    (hd : l.Pairwise (fun a b => f a ≠ f b)) :
    sortSummaryNum f .desc l = (sortSummaryNum f .asc l).reverse := by
  haveI : IsTotal α (summaryLe f .asc) :=
    ⟨by intro a b; simp only [summaryLe, cmpSummaryNum]; omega⟩
  haveI : IsTrans α (summaryLe f .asc) :=
    ⟨by intro a b c; simp only [summaryLe, cmpSummaryNum]; omega⟩
  haveI : IsTotal α (summaryLe f .desc) :=
    ⟨by intro a b; simp only [summaryLe, cmpSummaryNum]; omega⟩
  haveI : IsTrans α (summaryLe f .desc) :=
    ⟨by intro a b c; simp only [summaryLe, cmpSummaryNum]; omega⟩
  have permAsc : List.Perm (sortSummaryNum f .asc l) l := List.perm_insertionSort _ l
  have permDesc : List.Perm (sortSummaryNum f .desc l) l := List.perm_insertionSort _ l
  have dAsc : (sortSummaryNum f .asc l).Pairwise (fun a b => f a ≠ f b) :=
    (permAsc.pairwise_iff (fun {_ _} h => Ne.symm h)).mpr hd
  have dDesc : (sortSummaryNum f .desc l).Pairwise (fun a b => f a ≠ f b) :=
    (permDesc.pairwise_iff (fun {_ _} h => Ne.symm h)).mpr hd
  have sAsc : (sortSummaryNum f .asc l).Pairwise (summaryLe f .asc) :=
    List.sorted_insertionSort _ l
  have sDesc : (sortSummaryNum f .desc l).Pairwise (summaryLe f .desc) :=
    List.sorted_insertionSort _ l
  have strictDesc : (sortSummaryNum f .desc l).Pairwise (fun a b => f b < f a) := by
    refine (sDesc.and dDesc).imp ?_
    intro a b hab
    have h1 := hab.1
    have h2 := hab.2
    simp only [summaryLe, cmpSummaryNum] at h1
    omega
  have strictRev : ((sortSummaryNum f .asc l).reverse).Pairwise (fun a b => f b < f a) := by
    rw [List.pairwise_reverse]
    refine (sAsc.and dAsc).imp ?_
    intro a b hab
    have h1 := hab.1
    have h2 := hab.2
    simp only [summaryLe, cmpSummaryNum] at h1
    omega
  haveI : IsAntisymm α (fun a b => f b < f a) :=
    ⟨by intro a b h1 h2; omega⟩
  exact List.eq_of_perm_of_sorted
    (permDesc.trans ((List.reverse_perm _).trans permAsc).symm) strictDesc strictRev

/-- Claim C2 counterexample: sorting `[("B", price 1), ("A", price 1)]` by
price leaves the tied records in input order `B, A`; the tie is not broken by
part-code order, contradicting the claimed tie-breaking discipline. -/
theorem sort_ties_not_by_code :
    ¬ tiesBrokenByCode SortKey.price
        (sortEntries SortKey.price [("B", partTied), ("A", partTied)]) := by
  unfold tiesBrokenByCode
  have hout : sortEntries SortKey.price [("B", partTied), ("A", partTied)] =
      [("B", partTied), ("A", partTied)] := by
    decide
  rw [hout]
  intro hpair
  have h := (List.pairwise_cons.mp hpair).1 ("A", partTied) (List.mem_singleton.mpr rfl)
  have hcmp : cmpEntries SortKey.price ("B", partTied) ("A", partTied) = 0 := by decide
  have hle : ("B" : String) ≤ "A" := h hcmp
  rw [String.le_iff_toList_le] at hle
  exact absurd hle (by decide)

/-- Claim C2 (amended): each catalogue sort is stable — records comparing
equal under the chosen key (equal price, equal stock, equal supplier, equal
code) retain their original relative input order — and on records with
pairwise distinct numeric keys the summary sort with direction descending is
the exact reverse of the ascending sort. -/
theorem sort_stability_spec :
    (∀ (c : Int) (l : List PartEntry),
        (sortEntries .price l).filter (fun e => decide (priceKey e = c)) =
          l.filter (fun e => decide (priceKey e = c)))
    ∧ (∀ (c : Int) (l : List PartEntry),
        (sortEntries .stock l).filter (fun e => decide (stockKey e = c)) =
          l.filter (fun e => decide (stockKey e = c)))
    ∧ (∀ (c : String) (l : List PartEntry),
        (sortEntries .supplier l).filter (fun e => decide (supplierKey e = c)) =
          l.filter (fun e => decide (supplierKey e = c)))
    ∧ (∀ (c : String) (l : List PartEntry),
        (sortEntries .material l).filter (fun e => decide (e.1 = c)) =
          l.filter (fun e => decide (e.1 = c)))
    ∧ (∀ (f : PartEntry → Int) (l : List PartEntry),
        l.Pairwise (fun a b => f a ≠ f b) →
          sortSummaryNum f .desc l = (sortSummaryNum f .asc l).reverse) := by
  refine ⟨?_, ?_, ?_, ?_, fun f l hd => sortSummaryNum_reverse f l hd⟩
  · intro c l
    apply insertionSort_filter_key priceKey
    intro a b h
    simp only [sortLe, cmpEntries, priceKey] at *
    omega
  · intro c l
    apply insertionSort_filter_key stockKey
    intro a b h
    simp only [sortLe, cmpEntries, stockKey] at *
    omega
  · intro c l
    apply insertionSort_filter_key supplierKey
    intro a b h
    simp only [sortLe, cmpEntries, supplierKey] at *
    simp [strCmp, h]
  · intro c l
    apply insertionSort_filter_key (fun e : PartEntry => e.1)
    intro a b h
    simp only [sortLe, cmpEntries] at *
    simp [strCmp, h]

theorem sort_stability_spec_witness :
    ([rowA, rowB].Pairwise fun a b => priceKey a ≠ priceKey b) ∧
      sortSummaryNum priceKey .desc [rowA, rowB] =
        (sortSummaryNum priceKey .asc [rowA, rowB]).reverse :=
  ⟨by decide, sort_stability_spec.2.2.2.2 priceKey [rowA, rowB] (by decide)⟩

/-! ### Ticket id arithmetic -/

theorem natToChars_ne_nil (n : Nat) : natToChars n ≠ [] := by
  rw [natToChars]
  split <;> simp

theorem digitChar10_inj : ∀ a < 10, ∀ b < 10, digitChar10 a = digitChar10 b → a = b := by
  decide

theorem digitChar10_ne_zero : ∀ a, 1 ≤ a → a < 10 → digitChar10 a ≠ '0' := by
  decide

theorem natToChars_lt_ten (n : Nat) (h : n < 10) : natToChars n = [digitChar10 n] := by
  rw [natToChars]
  simp [h]

theorem natToChars_ge_ten (n : Nat) (h : ¬ n < 10) :
    natToChars n = digitChar10 (n % 10) :: natToChars (n / 10) := by
  conv_lhs => rw [natToChars]
  simp [h]

theorem natToChars_inj : ∀ m n : Nat, natToChars m = natToChars n → m = n := by
  intro m
  induction m using Nat.strong_induction_on with
  | _ m ih =>
    intro n heq
    by_cases hm : m < 10 <;> by_cases hn : n < 10
    · rw [natToChars_lt_ten m hm, natToChars_lt_ten n hn] at heq
      simp at heq
      exact digitChar10_inj m hm n hn heq
    · rw [natToChars_lt_ten m hm, natToChars_ge_ten n hn] at heq
      have hlen := congrArg List.length heq
      rw [List.length_singleton, List.length_cons] at hlen
      exact absurd (List.eq_nil_of_length_eq_zero (by omega)) (natToChars_ne_nil (n / 10))
    · rw [natToChars_ge_ten m hm, natToChars_lt_ten n hn] at heq
      have hlen := congrArg List.length heq
      rw [List.length_singleton, List.length_cons] at hlen
      exact absurd (List.eq_nil_of_length_eq_zero (by omega)) (natToChars_ne_nil (m / 10))
    · rw [natToChars_ge_ten m hm, natToChars_ge_ten n hn] at heq
      simp at heq
      have h1 : m % 10 = n % 10 :=
        digitChar10_inj (m % 10) (Nat.mod_lt m (by omega)) (n % 10)
          (Nat.mod_lt n (by omega)) heq.1
      have h2 : m / 10 = n / 10 :=
        ih (m / 10) (Nat.div_lt_self (by omega) (by omega)) (n / 10) heq.2
      omega

theorem natToChars_getLast_ne_zero :
    ∀ n : Nat, 1 ≤ n → ∀ c, (natToChars n).getLast? = some c → c ≠ '0' := by
  intro n
  induction n using Nat.strong_induction_on with
  | _ n ih =>
    intro hn c hc
    by_cases h : n < 10
    · rw [natToChars_lt_ten n h] at hc
      simp at hc
      subst hc
      exact digitChar10_ne_zero n hn h
    · rw [natToChars_ge_ten n h] at hc
      rcases htail : natToChars (n / 10) with _ | ⟨b, l⟩
      · exact absurd htail (natToChars_ne_nil (n / 10))
      · rw [htail, List.getLast?_cons_cons] at hc
        refine ih (n / 10) (Nat.div_lt_self (by omega) (by omega)) ?_ c ?_
        · omega
        · rw [htail]
          exact hc

theorem natToString_data (n : Nat) : (natToString n).data = (natToChars n).reverse := rfl

theorem natToString_length (n : Nat) : (natToString n).length = (natToChars n).length := by
  have h : (natToString n).length = (natToString n).data.length := rfl
  rw [h, natToString_data, List.length_reverse]

theorem mkTicketId_inj (m n : Nat) (hm : 1 ≤ m) (hn : 1 ≤ n)
    (h : mkTicketId m = mkTicketId n) : m = n := by
  have hD : (padStart2 (natToString m)).data = (padStart2 (natToString n)).data := by
    have h2 := congrArg String.data h
    simp only [mkTicketId, String.data_append] at h2
    exact List.append_cancel_left h2
  have key : ∀ k : Nat, 1 ≤ k → (padStart2 (natToString k)).data =
      if (natToChars k).length < 2 then
        List.replicate (2 - (natToChars k).length) '0' ++ (natToChars k).reverse
      else (natToChars k).reverse := by
    intro k _
    simp only [padStart2, natToString_length]
    split
    · simp [String.data_append, natToString_data]
      rfl
    · exact natToString_data k
  rw [key m hm, key n hn] at hD
  by_cases hm10 : m < 10 <;> by_cases hn10 : n < 10
  · rw [natToChars_lt_ten m hm10, natToChars_lt_ten n hn10] at hD
    simp at hD
    exact digitChar10_inj m hm10 n hn10 hD
  · rw [natToChars_lt_ten m hm10] at hD
    have hlen2 : ¬ (natToChars n).length < 2 := by
      rw [natToChars_ge_ten n hn10]
      rcases htail : natToChars (n / 10) with _ | ⟨b, l⟩
      · exact absurd htail (natToChars_ne_nil (n / 10))
      · simp
    rw [if_neg hlen2] at hD
    simp at hD
    have hrev : natToChars n = [digitChar10 m, '0'] := by
      have := congrArg List.reverse hD
      simpa using this.symm
    have hlast : (natToChars n).getLast? = some '0' := by
      rw [hrev]
      rfl
    exact absurd rfl (natToChars_getLast_ne_zero n (by omega) '0' hlast)
  · rw [natToChars_lt_ten n hn10] at hD
    have hlen2 : ¬ (natToChars m).length < 2 := by
      rw [natToChars_ge_ten m hm10]
      rcases htail : natToChars (m / 10) with _ | ⟨b, l⟩
      · exact absurd htail (natToChars_ne_nil (m / 10))
      · simp
    rw [if_neg hlen2] at hD
    simp at hD
    have hrev : natToChars m = [digitChar10 n, '0'] := by
      have := congrArg List.reverse hD
      simpa using this
    have hlast : (natToChars m).getLast? = some '0' := by
      rw [hrev]
      rfl
    exact absurd rfl (natToChars_getLast_ne_zero m (by omega) '0' hlast)
  · have hlenm : ¬ (natToChars m).length < 2 := by
      rw [natToChars_ge_ten m hm10]
      rcases htail : natToChars (m / 10) with _ | ⟨b, l⟩
      · exact absurd htail (natToChars_ne_nil (m / 10))
      · simp
    have hlenn : ¬ (natToChars n).length < 2 := by
      rw [natToChars_ge_ten n hn10]
      rcases htail : natToChars (n / 10) with _ | ⟨b, l⟩
      · exact absurd htail (natToChars_ne_nil (n / 10))
      · simp
    rw [if_neg hlenm, if_neg hlenn] at hD
    exact natToChars_inj m n (List.reverse_injective hD)

theorem mkTicketId_ne_empty (n : Nat) : mkTicketId n ≠ "" := by
  intro h
  have h2 := congrArg String.data h
  simp [mkTicketId, String.data_append] at h2

/-! ### Ticket workflow theorems -/

theorem reachable_ids (st : List LocalApplication) (h : Reachable st) :
    st.map (fun a => a.ticketId) =
      (List.range st.length).map (fun i => mkTicketId (i + 1)) := by
  induction h with
  | init => simp
  | step form now st' _hst ih =>
    by_cases hv : form.requestedBy = "" ∨ form.department = "" ∨ form.quantity = "" ∨
        form.specifications = ""
    · simpa [handleSubmit, hv] using ih
    · simp only [handleSubmit, hv, if_neg, if_false]
      simp only [List.map_append, List.length_append, List.map_cons, List.map_nil,
        List.length_cons, List.length_nil, ih, generateTicketId]
      rw [List.range_succ, List.map_append]
      simp [newApplicationOf]

theorem rangeIds_nodup (k : Nat) :
    ((List.range k).map (fun i => mkTicketId (i + 1))).Nodup := by
  apply List.Nodup.map_on ?_ (List.nodup_range k)
  intro x _ y _ hxy
  have := mkTicketId_inj (x + 1) (y + 1) (by omega) (by omega) hxy
  omega

/-- Claim C4 counterexample: the submission of the spec scenario — requester
`Alice`, department `Eng`, specifications `bolt`, all other fields empty —
is rejected (because `quantity` is also required), with a generic message
and no record created, contradicting the claimed acceptance condition. -/
theorem submission_alice_rejected :
    (handleSubmit formAlice "2024-01-01T00:00:00Z" []).1 =
      Except.error validationMessage
    ∧ (handleSubmit formAlice "2024-01-01T00:00:00Z" []).2 = [] := by
  constructor <;> rfl

/-- Claim C4 (amended): a submission is accepted exactly when `requestedBy`,
`department`, `quantity` and `specifications` are all non-empty; otherwise
it fails with the single generic validation message (the individual missing
fields are not reported) and the stored application list is unchanged. -/
theorem submit_validation_spec (form : ApplicationForm) (now : String)
    (st : List LocalApplication) :
    ((handleSubmit form now st).1.isOk = true ↔
      (form.requestedBy ≠ "" ∧ form.department ≠ "" ∧ form.quantity ≠ "" ∧
        form.specifications ≠ ""))
    ∧ (∀ e, (handleSubmit form now st).1 = Except.error e →
        (handleSubmit form now st).2 = st ∧ e = validationMessage) := by
  by_cases hv : form.requestedBy = "" ∨ form.department = "" ∨ form.quantity = "" ∨
      form.specifications = ""
  · constructor
    · refine iff_of_false ?_ ?_
      · simp [handleSubmit, hv, Except.isOk, Except.toBool]
      · tauto
    · intro e he
      simp only [handleSubmit, hv, if_true] at he
      injection he with h3
      exact ⟨by simp [handleSubmit, hv], h3.symm⟩
  · constructor
    · refine iff_of_true ?_ ?_
      · simp [handleSubmit, hv, Except.isOk, Except.toBool]
      · tauto
    · intro e he
      simp only [handleSubmit, hv, if_false] at he
      exact Except.noConfusion he

theorem submit_validation_spec_witness :
    (handleSubmit { requestedBy := "" } "t0" []).2 = ([] : List LocalApplication) ∧
      validationMessage = validationMessage :=
  (submit_validation_spec { requestedBy := "" } "t0" []).2 validationMessage rfl

/-- Claim C5: in every reachable store state, a successful submission mints
a non-empty ticket id distinct from every stored id, the resulting stored
ids are pairwise distinct, and the created ticket is appended with status
`pending` and the submission-time stamp. -/
theorem ticket_id_spec (st : List LocalApplication) (hst : Reachable st)
    (form : ApplicationForm) (now : String) (tid : String)
    (hok : (handleSubmit form now st).1 = Except.ok tid) :
    tid ≠ ""
    ∧ tid ∉ st.map (fun a => a.ticketId)
    ∧ ((handleSubmit form now st).2.map (fun a => a.ticketId)).Nodup
    ∧ (∃ app, (handleSubmit form now st).2 = st ++ [app] ∧
        app.status = Status.pending ∧ app.submittedAt = now ∧ app.ticketId = tid) := by
  by_cases hv : form.requestedBy = "" ∨ form.department = "" ∨ form.quantity = "" ∨
      form.specifications = ""
  · simp [handleSubmit, hv] at hok
  · have hid : tid = mkTicketId (st.length + 1) := by
      simp only [handleSubmit, hv, if_false, generateTicketId] at hok
      exact (Except.ok.inj hok).symm
    refine ⟨?_, ?_, ?_, ?_⟩
    · rw [hid]
      exact mkTicketId_ne_empty (st.length + 1)
    · rw [hid, reachable_ids st hst]
      intro hmem
      simp only [List.mem_map, List.mem_range] at hmem
      obtain ⟨i, hi, hieq⟩ := hmem
      have := mkTicketId_inj (i + 1) (st.length + 1) (by omega) (by omega) hieq
      omega
    · rw [reachable_ids _ (Reachable.step form now st hst)]
      exact rangeIds_nodup _
    · refine ⟨newApplicationOf form now (generateTicketId st), ?_, rfl, rfl, ?_⟩
      · simp only [handleSubmit, hv, if_false]
      · rw [hid]
        simp [newApplicationOf, generateTicketId]

theorem ticket_id_spec_witness :
    Reachable ([] : List LocalApplication)
    ∧ (handleSubmit formBob "2024-05-01" []).1 = Except.ok (generateTicketId [])
    ∧ (generateTicketId [] ≠ ""
        ∧ generateTicketId [] ∉ ([] : List LocalApplication).map (fun a => a.ticketId)
        ∧ ((handleSubmit formBob "2024-05-01" []).2.map (fun a => a.ticketId)).Nodup
        ∧ (∃ app, (handleSubmit formBob "2024-05-01" []).2 = [] ++ [app] ∧
            app.status = Status.pending ∧ app.submittedAt = "2024-05-01" ∧
            app.ticketId = generateTicketId [])) :=
  ⟨Reachable.init, rfl,
    ticket_id_spec [] Reachable.init formBob "2024-05-01" (generateTicketId []) rfl⟩

/-! ### Store query and merge-update theorems -/

theorem lookup_none_iff {β : Type} (st : List (String × β)) (id : String) :
    List.lookup id st = none ↔ id ∉ st.map Prod.fst := by
  induction st with
  | nil => simp
  | cons kv rest ih =>
    obtain ⟨k, v⟩ := kv
    by_cases hik : id = k
    · subst hik
      simp [List.lookup]
    · have hbeq : (id == k) = false := by
        simp [hik]
      simp only [List.lookup, hbeq, List.map_cons, List.mem_cons, not_or]
      rw [ih]
      simp [hik]

theorem lookup_some_iff {β : Type} (st : List (String × β))
    (hk : (st.map Prod.fst).Nodup) (id : String) (a : β) :
    List.lookup id st = some a ↔ (id, a) ∈ st := by
  induction st with
  | nil => simp
  | cons kv rest ih =>
    obtain ⟨k, v⟩ := kv
    simp only [List.map_cons, List.nodup_cons] at hk
    by_cases hik : id = k
    · subst hik
      simp only [List.lookup, beq_self_eq_true]
      constructor
      · intro hva
        have : v = a := by
          injection hva
        exact this ▸ List.mem_cons_self _ _
      · intro hmem
        rcases List.mem_cons.mp hmem with h1 | h2
        · cases h1
          rfl
        · exact absurd (List.mem_map.mpr ⟨(id, a), h2, rfl⟩) hk.1
    · have hbeq : (id == k) = false := by
        simp [hik]
      simp only [List.lookup, hbeq]
      rw [ih hk.2]
      constructor
      · exact fun h2 => List.mem_cons_of_mem _ h2
      · intro hmem
        rcases List.mem_cons.mp hmem with h1 | h2
        · exact absurd (congrArg Prod.fst h1) hik
        · exact h2

/-- Claim C6: fetch-all returns every stored ticket, ordered by descending
creation timestamp (most recent first), fetch-by-id returns the record under
that key or `none`, and neither operation changes the store. -/
theorem query_ops_spec (st : AppStore) (id : String)
    (hk : (st.map Prod.fst).Nodup) :
    List.Perm (getAllPartApplications st).1 (st.map Prod.snd)
    ∧ (getAllPartApplications st).1.Pairwise (fun a b => b.created_at ≤ a.created_at)
    ∧ (getAllPartApplications st).2 = st
    ∧ (getPartApplication id st).2 = st
    ∧ (∀ a, (getPartApplication id st).1 = some a ↔ (id, a) ∈ st)
    ∧ ((getPartApplication id st).1 = none ↔ id ∉ st.map Prod.fst) := by
  refine ⟨?_, ?_, rfl, rfl, fun a => lookup_some_iff st hk id a, lookup_none_iff st id⟩
  · exact (List.reverse_perm _).trans ((List.perm_insertionSort appLe st).map Prod.snd)
  · haveI : IsTotal (String × PartApplication) appLe := ⟨by
      intro a b
      unfold appLe
      rcases lt_trichotomy a.2.created_at b.2.created_at with h | h | h
      · exact Or.inl (Or.inl h)
      · rcases le_total a.1 b.1 with hs | hs
        · exact Or.inl (Or.inr ⟨h, hs⟩)
        · exact Or.inr (Or.inr ⟨h.symm, hs⟩)
      · exact Or.inr (Or.inl h)⟩
    haveI : IsTrans (String × PartApplication) appLe := ⟨by
      intro a b c hab hbc
      unfold appLe at *
      rcases hab with h1 | ⟨h1, h1s⟩ <;> rcases hbc with h2 | ⟨h2, h2s⟩
      · exact Or.inl (by omega)
      · exact Or.inl (by omega)
      · exact Or.inl (by omega)
      · exact Or.inr ⟨by omega, le_trans h1s h2s⟩⟩
    have hs : (st.insertionSort appLe).Pairwise appLe :=
      List.sorted_insertionSort appLe st
    simp only [getAllPartApplications]
    rw [List.pairwise_reverse, List.pairwise_map]
    refine hs.imp ?_
    intro a b hab
    rcases hab with h | ⟨h, _⟩
    · exact le_of_lt h
    · exact le_of_eq h

theorem query_ops_spec_witness :
    ((storeW.map Prod.fst).Nodup)
    ∧ List.Perm (getAllPartApplications storeW).1 (storeW.map Prod.snd)
    ∧ ((getPartApplication "k1" storeW).1 = some appRec1 ↔ ("k1", appRec1) ∈ storeW) :=
  ⟨by decide, (query_ops_spec storeW "k1" (by decide)).1,
    (query_ops_spec storeW "k1" (by decide)).2.2.2.2.1 appRec1⟩

/-- Claim C7: for an existing part, the admin merge-update writes back a
record whose non-admin fields all equal the stored record, whose admin
fields follow the payload when the key is present and keep the stored value
when absent, and every other key of the store is untouched. -/
theorem merge_update_spec (store : PartsStore) (material : String) (old : Part)
    (u : PartUpdates) (h : store material = some old) :
    (∃ p : Part, updatePartData material u store material = some p
      ∧ p.Material = old.Material
      ∧ p.SPRAS_EN = old.SPRAS_EN
      ∧ p.Standard_Price = old.Standard_Price
      ∧ p.Current_Stock_Qty = old.Current_Stock_Qty
      ∧ p.Sales_Qty_PGI_2025 = old.Sales_Qty_PGI_2025
      ∧ p.Sales_Qty_SO_2025 = old.Sales_Qty_SO_2025
      ∧ p.Invoice_Amount_2025 = old.Invoice_Amount_2025
      ∧ p.Invoice_Currency = old.Invoice_Currency
      ∧ p.Sales_Currency = old.Sales_Currency
      ∧ p.Sales_Unit = old.Sales_Unit
      ∧ p.Dealer_Price = old.Dealer_Price
      ∧ p.Customer_Price = old.Customer_Price
      ∧ p.Dealer_vs_Std_Pct = old.Dealer_vs_Std_Pct
      ∧ p.Customer_vs_Std_Pct = old.Customer_vs_Std_Pct
      ∧ p.Purchase_Qty_2025_to_Date = old.Purchase_Qty_2025_to_Date
      ∧ p.Supplier_Name = old.Supplier_Name
      ∧ (∀ v, u.notes = some v → p.notes = some v)
      ∧ (u.notes = none → p.notes = old.notes)
      ∧ (∀ v, u.year = some v → p.year = some v)
      ∧ (u.year = none → p.year = old.year)
      ∧ (∀ v, u.obsoleted_date = some v → p.obsoleted_date = some v)
      ∧ (u.obsoleted_date = none → p.obsoleted_date = old.obsoleted_date)
      ∧ (∀ v, u.alternative_parts = some v → p.alternative_parts = some v)
      ∧ (u.alternative_parts = none → p.alternative_parts = old.alternative_parts))
    ∧ (∀ m, m ≠ material → updatePartData material u store m = store m) := by
  constructor
  · refine ⟨mergePart old u, by simp [updatePartData, h], rfl, rfl, rfl, rfl, rfl, rfl,
      rfl, rfl, rfl, rfl, rfl, rfl, rfl, rfl, rfl, rfl, ?_, ?_, ?_, ?_, ?_, ?_, ?_, ?_⟩
    · intro v hv
      simp [mergePart, overrideField, hv]
    · intro hv
      simp [mergePart, overrideField, hv]
    · intro v hv
      simp [mergePart, overrideField, hv]
    · intro hv
      simp [mergePart, overrideField, hv]
    · intro v hv
      simp [mergePart, overrideField, hv]
    · intro hv
      simp [mergePart, overrideField, hv]
    · intro v hv
      simp [mergePart, overrideField, hv]
    · intro hv
      simp [mergePart, overrideField, hv]
  · intro m hm
    simp [updatePartData, hm]

theorem merge_update_spec_witness :
    storeP "P1" = some oldPartW
    ∧ updatePartData "P1" updW storeP "P1" = some { oldPartW with year := some "2024" }
    ∧ (∀ m, m ≠ "P1" → updatePartData "P1" updW storeP m = storeP m) :=
  ⟨rfl, rfl, (merge_update_spec storeP "P1" oldPartW updW rfl).2⟩

/-! ### PDF export theorems -/

theorem NoImg.append {l1 l2 : List PdfOp} (h1 : NoImg l1) (h2 : NoImg l2) :
    NoImg (l1 ++ l2) := by
  intro url hm
  rcases List.mem_append.mp hm with h | h
  · exact h1 url h
  · exact h2 url h

theorem noImg_single {op : PdfOp} (hop : isImageOp op = false) : NoImg [op] := by
  intro url hm
  rw [List.mem_singleton] at hm
  subst hm
  simp [isImageOp] at hop

theorem NoImg.emit {st : PdfState} {op : PdfOp} (h : NoImg st.ops)
    (hop : isImageOp op = false) : NoImg (emit op st).ops := by
  simpa [PartsApp.emit] using h.append (noImg_single hop)

theorem NoImg.advance {st : PdfState} {d : Int} (h : NoImg st.ops) :
    NoImg (advance d st).ops := h

theorem NoImg.newPage {st : PdfState} (h : NoImg st.ops) :
    NoImg (newPage st).ops := by
  simpa [PartsApp.newPage] using
    h.append (noImg_single (show isImageOp PdfOp.addPage = false from rfl))

theorem noImg_partFieldStep (split : String → Int → List String) (f : String × String)
    {st : PdfState} (h : NoImg st.ops) : NoImg (partFieldStep split f st).ops := by
  unfold partFieldStep
  exact NoImg.advance (NoImg.emit (NoImg.emit (NoImg.emit (NoImg.emit h rfl) rfl) rfl) rfl)

theorem noImg_requestFieldStep (f : String × String) {st : PdfState} (h : NoImg st.ops) :
    NoImg (requestFieldStep f st).ops := by
  unfold requestFieldStep
  exact NoImg.advance (NoImg.emit (NoImg.emit (NoImg.emit (NoImg.emit h rfl) rfl) rfl) rfl)

theorem noImg_headerBlock (lang : Lang) (fmtDate : Int → String) (app : PartApplication)
    {st : PdfState} (h : NoImg st.ops) : NoImg (headerBlock lang fmtDate app st).ops := by
  unfold headerBlock
  repeat
    first
      | exact h
      | refine NoImg.emit ?_ rfl
      | refine NoImg.advance ?_

theorem noImg_partInfoBlock (lang : Lang) (split : String → Int → List String)
    (app : PartApplication) {st : PdfState} (h : NoImg st.ops) :
    NoImg (partInfoBlock lang split app st).ops := by
  unfold partInfoBlock
  repeat
    first
      | exact h
      | refine NoImg.emit ?_ rfl
      | refine NoImg.advance ?_
      | refine noImg_partFieldStep _ _ ?_

theorem noImg_requestBlock (lang : Lang) (fmtCurrency : Int → String)
    (app : PartApplication) {st : PdfState} (h : NoImg st.ops) :
    NoImg (requestBlock lang fmtCurrency app st).ops := by
  unfold requestBlock
  repeat
    first
      | exact h
      | refine NoImg.emit ?_ rfl
      | refine NoImg.advance ?_
      | refine noImg_requestFieldStep _ ?_

theorem noImg_techBlock (lang : Lang) (split : String → Int → List String)
    (app : PartApplication) {st : PdfState} (h : NoImg st.ops) :
    NoImg (techBlock lang split app st).ops := by
  unfold techBlock
  repeat
    first
      | exact h
      | exact NoImg.newPage h
      | refine NoImg.emit ?_ rfl
      | refine NoImg.advance ?_
      | split

theorem noImg_justBlock (lang : Lang) (split : String → Int → List String)
    (app : PartApplication) {st : PdfState} (h : NoImg st.ops) :
    NoImg (justBlock lang split app st).ops := by
  unfold justBlock
  repeat
    first
      | exact h
      | exact NoImg.newPage h
      | refine NoImg.emit ?_ rfl
      | refine NoImg.advance ?_
      | split

theorem noImg_notesBlock (lang : Lang) (split : String → Int → List String)
    (app : PartApplication) {st : PdfState} (h : NoImg st.ops) :
    NoImg (notesBlock lang split app st).ops := by
  unfold notesBlock
  repeat
    first
      | exact h
      | exact NoImg.newPage h
      | refine NoImg.emit ?_ rfl
      | refine NoImg.advance ?_
      | split

theorem noImg_imageBlock_fail (lang : Lang) (app : PartApplication) {st : PdfState}
    (h : NoImg st.ops) : NoImg (imageBlock lang (fun _ => false) app st).ops := by
  unfold imageBlock
  repeat
    first
      | exact h
      | exact NoImg.newPage h
      | refine NoImg.emit ?_ rfl
      | refine NoImg.advance ?_
      | split
      | simp_all

theorem noImg_footerBlock (lang : Lang) (today : String) {st : PdfState}
    (h : NoImg st.ops) : NoImg (footerBlock lang today st).ops := by
  unfold footerBlock
  exact NoImg.emit (NoImg.emit (NoImg.emit h rfl) rfl) rfl

theorem footerBlock_ops (lang : Lang) (today : String) (st : PdfState) :
    (footerBlock lang today st).ops =
      st.ops ++ [PdfOp.setFontSize 8, PdfOp.setFontNormal,
        PdfOp.text (footerText lang today)] := by
  simp [footerBlock, emit]

theorem filter_maybe_image (c : Bool) (url : String) (st : PdfState) :
    (if c = true then emit (PdfOp.image url) st else st).ops.filter
        (fun op => !isImageOp op) =
      st.ops.filter (fun op => !isImageOp op) := by
  by_cases hc : c = true
  · rw [if_pos hc]
    simp [emit, List.filter_append, isImageOp]
  · rw [if_neg hc]

theorem imageBlock_filter (lang : Lang) (fetch : String → Bool) (app : PartApplication)
    (st : PdfState) :
    (imageBlock lang fetch app st).ops.filter (fun op => !isImageOp op) =
      (imageBlock lang (fun _ => false) app st).ops.filter (fun op => !isImageOp op) := by
  unfold imageBlock
  split
  · rfl
  next u heq =>
    by_cases hu : u = ""
    · rw [if_pos hu, if_pos hu]
    · rw [if_neg hu, if_neg hu, filter_maybe_image, filter_maybe_image]

/-- Claim C8: each missing optional block is omitted entirely, per block and
for every ticket — an empty technical-specifications field removes exactly
the technical-specifications section from the generated document, an empty
justification exactly the justification section, and empty notes exactly the
notes section, with no header or placeholder emitted for the omitted
block. -/
theorem pdf_omits_empty_blocks (split : String → Int → List String)
    (fetch : String → Bool) (fmtDate : Int → String) (fmtCurrency : Int → String)
    (today : String) (lang : Lang) (app : PartApplication) :
    (app.technical_specs = "" →
      generateApplicationPDF split fetch fmtDate fmtCurrency today app lang =
        (footerBlock lang today
          (imageBlock lang fetch app
            (notesBlock lang split app
              (justBlock lang split app
                (requestBlock lang fmtCurrency app
                  (partInfoBlock lang split app
                    (headerBlock lang fmtDate app initPdfState)))))),
         pdfFilename app lang))
    ∧ (app.justification = "" →
      generateApplicationPDF split fetch fmtDate fmtCurrency today app lang =
        (footerBlock lang today
          (imageBlock lang fetch app
            (notesBlock lang split app
              (techBlock lang split app
                (requestBlock lang fmtCurrency app
                  (partInfoBlock lang split app
                    (headerBlock lang fmtDate app initPdfState)))))),
         pdfFilename app lang))
    ∧ (app.application_notes = "" →
      generateApplicationPDF split fetch fmtDate fmtCurrency today app lang =
        (footerBlock lang today
          (imageBlock lang fetch app
            (justBlock lang split app
              (techBlock lang split app
                (requestBlock lang fmtCurrency app
                  (partInfoBlock lang split app
                    (headerBlock lang fmtDate app initPdfState)))))),
         pdfFilename app lang)) := by
  refine ⟨fun h1 => ?_, fun h2 => ?_, fun h3 => ?_⟩
  · simp [generateApplicationPDF, techBlock, h1]
  · simp [generateApplicationPDF, justBlock, h2]
  · simp [generateApplicationPDF, notesBlock, h3]

theorem pdf_omits_empty_blocks_witness :
    appOnlyJustEmpty.justification = "" ∧
      generateApplicationPDF splitW (fun _ => true) fmtW fmtW "today"
          appOnlyJustEmpty .en =
        (footerBlock .en "today"
          (imageBlock .en (fun _ => true) appOnlyJustEmpty
            (notesBlock .en splitW appOnlyJustEmpty
              (techBlock .en splitW appOnlyJustEmpty
                (requestBlock .en fmtW appOnlyJustEmpty
                  (partInfoBlock .en splitW appOnlyJustEmpty
                    (headerBlock .en fmtW appOnlyJustEmpty initPdfState)))))),
         pdfFilename appOnlyJustEmpty .en) :=
  ⟨rfl,
    (pdf_omits_empty_blocks splitW (fun _ => true) fmtW fmtW "today" .en
      appOnlyJustEmpty).2.1 rfl⟩

/-- Claim C9 counterexample: for a ticket with an image reference whose
fetch fails, the produced document is not the document with the image block
skipped — the block header `Part Image` is still emitted. -/
theorem pdf_image_fail_block_not_skipped :
    (generateApplicationPDF splitW (fun _ => false) fmtW fmtW "today" appWithImage .en
      ≠ (footerBlock .en "today"
          (notesBlock .en splitW appWithImage
            (justBlock .en splitW appWithImage
              (techBlock .en splitW appWithImage
                (requestBlock .en fmtW appWithImage
                  (partInfoBlock .en splitW appWithImage
                    (headerBlock .en fmtW appWithImage initPdfState)))))),
         pdfFilename appWithImage .en))
    ∧ PdfOp.text (imageTitle .en) ∈
        (generateApplicationPDF splitW (fun _ => false) fmtW fmtW "today" appWithImage .en).1.ops := by
  constructor
  · decide
  · decide

/-- Claim C9 (amended): when the image fetch fails the export still
completes: no image is embedded, the block header is still drawn, and every
non-image operation and the filename are exactly those of the export with
any other fetch outcome. -/
theorem pdf_image_failure_spec (split : String → Int → List String)
    (fetch : String → Bool) (fmtDate : Int → String) (fmtCurrency : Int → String)
    (today : String) (lang : Lang) (app : PartApplication) :
    (∀ url, PdfOp.image url ∉
        (generateApplicationPDF split (fun _ => false) fmtDate fmtCurrency today
          app lang).1.ops)
    ∧ ((generateApplicationPDF split fetch fmtDate fmtCurrency today
          app lang).1.ops.filter (fun op => !isImageOp op) =
        (generateApplicationPDF split (fun _ => false) fmtDate fmtCurrency today
          app lang).1.ops.filter (fun op => !isImageOp op))
    ∧ (generateApplicationPDF split fetch fmtDate fmtCurrency today app lang).2 =
        (generateApplicationPDF split (fun _ => false) fmtDate fmtCurrency today
          app lang).2 := by
  refine ⟨?_, ?_, rfl⟩
  · have h0 : NoImg initPdfState.ops := by
      intro url hm
      simp [initPdfState] at hm
    exact noImg_footerBlock lang today
      (noImg_imageBlock_fail lang app
        (noImg_notesBlock lang split app
          (noImg_justBlock lang split app
            (noImg_techBlock lang split app
              (noImg_requestBlock lang fmtCurrency app
                (noImg_partInfoBlock lang split app
                  (noImg_headerBlock lang fmtDate app h0)))))))
  · simp only [generateApplicationPDF]
    rw [footerBlock_ops, footerBlock_ops, List.filter_append, List.filter_append,
      imageBlock_filter]

theorem pdf_image_failure_spec_witness :
    (generateApplicationPDF splitW (fun _ => true) fmtW fmtW "today"
        appWithImage .en).1.ops.filter (fun op => !isImageOp op) =
      (generateApplicationPDF splitW (fun _ => false) fmtW fmtW "today"
        appWithImage .en).1.ops.filter (fun op => !isImageOp op) :=
  (pdf_image_failure_spec splitW (fun _ => true) fmtW fmtW "today" .en appWithImage).2.1

end PartsApp
